import Mathlib

/-!
# Verification of the illumo-flow core (`src/illumo_flow/core.py`, `policy.py`)

A shallow embedding of the Flow orchestration engine.  Python values are
modelled by the inductive `Value` (`None` is `Value.null`); Python `dict`s
are insertion-ordered association lists (`Dict`), matching CPython's
ordering semantics: assigning to an existing key keeps its position,
assigning to a fresh key appends.

The flow context is a Python dict whose reserved keys (`steps`, `routing`,
`joins`, `errors`, `payloads`, `failed_*`) are initialized by
`_ensure_context` and are used by the scheduler at the types recorded in
their contracts.  We model it as the structure `Ctx` whose fields carry
exactly those types; all non-reserved keys live in the `data` field.
In-place mutation of the context object is modelled by explicit state
passing: every function that mutates the context in Python returns the
updated `Ctx` here.
-/

/-- Python values stored in the flow context.  `Value.null` is Python `None`. -/
inductive Value where
  | null
  | bool (b : Bool)
  | int (n : Int)
  | str (s : String)
  | list (xs : List Value)
  | dict (m : List (String × Value))
  deriving Repr

/-- A Python `dict` with string keys: an insertion-ordered association list. -/
abbrev Dict := List (String × Value)

/-- Python `d.get(k)`: the first binding of `k`, if any. -/
def dictGet? (m : Dict) (k : String) : Option Value :=
  match m with
  | [] => none
  | (k', v) :: rest => if k' = k then some v else dictGet? rest k

/-- Python `d.get(k, default)`. -/
def dictGetD (m : Dict) (k : String) (v₀ : Value) : Value :=
  (dictGet? m k).getD v₀

/-- Python `d[k] = v`: update in place if `k` is bound, else append. -/
def dictSet (m : Dict) (k : String) (v : Value) : Dict :=
  match m with
  | [] => [(k, v)]
  | (k', v') :: rest => if k' = k then (k', v) :: rest else (k', v') :: dictSet rest k v

/-- Python `k in d`. -/
def dictMem (m : Dict) (k : String) : Bool :=
  (dictGet? m k).isSome

/-- Python `d.setdefault(k, v)`. -/
def dictSetDefault (m : Dict) (k : String) (v : Value) : Dict :=
  if dictMem m k then m else m ++ [(k, v)]

/-- `True` exactly on Python `None` (used for `is not None` checks). -/
def Value.isNull : Value → Bool
  | .null => true
  | _ => false

/-- `True` exactly on Python dicts (mappings). -/
def Value.isDict : Value → Bool
  | .dict _ => true
  | _ => false

/-! ## Path resolver (`core.py` lines 34-59)

`_get_from_path` and `_set_to_path` address nested mappings through dotted
paths.  A `None` path is modelled as `Option.none`; Python's falsiness test
`if not path` is `none` or the empty string.
-/

/-- Split a list at every occurrence of the character `c` (Python `str.split(c)`). -/
def splitOnChar (c : Char) : List Char → List (List Char)
  | [] => [[]]
  | x :: rest =>
    let r := splitOnChar c rest
    if x = c then [] :: r
    else
      match r with
      | h :: t => (x :: h) :: t
      | [] => [[x]]

/-- `[p for p in path.split(".") if p]`: the non-empty dotted segments of a path. -/
def pathParts (path : String) : List String :=
  ((splitOnChar '.' path.data).filter (· ≠ [])).map String.mk

/-- The walk of `_get_from_path`: descend through mappings, returning `None`
(`Value.null`) as soon as a segment is missing or the current value is not a
mapping; return the value reached after the last segment. -/
def getPathWalk : Value → List String → Value
  | cur, [] => cur
  | cur, part :: rest =>
    match cur with
    | .dict m =>
      match dictGet? m part with
      | some v => getPathWalk v rest
      | none => .null
    | _ => .null

/-- `_get_from_path(mapping, path)` from `core.py:34-43`. -/
def _get_from_path (mapping : Dict) (path : Option String) : Value :=
  match path with
  | none => .null
  | some p => if p = "" then .null else getPathWalk (Value.dict mapping) (pathParts p)

/-- The write loop of `_set_to_path`: for every intermediate segment reuse the
existing sub-mapping when present, otherwise (missing or not a mapping)
install a fresh one; assign the value at the final segment. -/
def setPathWalk (m : Dict) (parts : List String) (v : Value) : Dict :=
  match parts with
  | [] => m
  | [last] => dictSet m last v
  | part :: rest =>
    let sub : Dict :=
      match dictGet? m part with
      | some (.dict d) => d
      | _ => []
    dictSet m part (.dict (setPathWalk sub rest v))

/-- `_set_to_path(mapping, path, value)` from `core.py:46-59`. -/
def _set_to_path (mapping : Dict) (path : Option String) (v : Value) : Dict :=
  match path with
  | none => mapping
  | some p =>
    if p = "" then mapping
    else
      match pathParts p with
      | [] => mapping
      | parts => setPathWalk mapping parts v

/-! ## Context (`_ensure_context`, `core.py` lines 23-31)

Reserved keys at their contracted types; `data` holds every non-reserved key.
`_ensure_context` setdefaults the reserved keys, so in this model (where the
fields always exist) it only replaces a missing context by an empty one.
-/

/-- One record of the `steps` list: `{node_id, status, message?}`. -/
structure Step where
  node_id : String
  status : String
  message : Option String := none
  deriving Repr, DecidableEq

/-- One record of the `errors` list: `{node_id, exception, message}`. -/
structure ErrorRecord where
  node_id : String
  exception : String
  message : String
  deriving Repr, DecidableEq

/-- The exception raised by a node: its class name and `str(exc)`. -/
structure ExcInfo where
  exception : String
  message : String
  deriving Repr, DecidableEq

/-- `next` field of a `Routing` value / raw routing target: a single node id
or a sequence of ids. -/
inductive Target where
  | one (id : String)
  | many (ids : List String)
  deriving Repr, DecidableEq

/-- A value stored in `context["routing"]`, as consumed by
`_resolve_successors` (`core.py:352-357`): a `Routing` dataclass instance
(field `next`), a mapping (its key `"next"`), or any other value, which is
used directly as the raw target. -/
inductive RoutingValue where
  | robj (rnext : Option Target)
  | rmap (rnext : Option Target)
  | direct (t : Target)
  deriving Repr, DecidableEq

/-- The flow context.  Reserved keys of the Python context dict are fields;
all remaining keys live in `data`. -/
structure Ctx where
  steps : List Step := []
  routing : List (String × RoutingValue) := []
  joins : List (String × Dict) := []
  errors : List ErrorRecord := []
  payloads : Dict := []
  failed_node_id : Option String := none
  failed_exception_type : Option String := none
  failed_message : Option String := none
  data : Dict := []

/-- The empty context created for a `None` argument. -/
def emptyCtx : Ctx := {}

/-- `_ensure_context` (`core.py:23-31`): replace a missing context by an empty
one; the reserved-key setdefaults are identities in this model. -/
def ensureCtx : Option Ctx → Ctx
  | none => emptyCtx
  | some c => c

/-! ## Edge mini-language parser (`core.py` lines 229-249)

Python string operations are modelled on `List Char`:
`pyStripChars` is `str.strip()`, `hasPair` is a two-character substring
test, `splitFirstPair` is `str.split(sep, 1)` for a two-character
separator, `replaceChar` is `str.replace` for single characters.
-/

/-- Python `str.strip()`. -/
def pyStripChars (cs : List Char) : List Char :=
  ((cs.dropWhile Char.isWhitespace).reverse.dropWhile Char.isWhitespace).reverse

/-- Whether the two-character string `ab` occurs in the list. -/
def hasPair (a b : Char) : List Char → Bool
  | x :: y :: rest => (x = a && y = b) || hasPair a b (y :: rest)
  | _ => false

/-- Split at the first occurrence of the two-character separator `ab`
(Python `text.split(sep, 1)` when the separator occurs). -/
def splitFirstPair (a b : Char) : List Char → Option (List Char × List Char)
  | x :: y :: rest =>
    if x = a ∧ y = b then some ([], rest)
    else (splitFirstPair a b (y :: rest)).map (fun p => (x :: p.1, p.2))
  | _ => none

/-- Python `str.replace(a, b)` for single characters. -/
def replaceChar (a b : Char) (cs : List Char) : List Char :=
  cs.map fun c => if c = a then b else c

/-- `Flow._split_terms` (`core.py:241-249`): strip, remove one pair of
surrounding parentheses, reject an empty segment, treat `&` as `|`, split
and strip the terms, drop empty terms. -/
def _split_terms (segment : List Char) : Except String (List String)  :=
  let s := pyStripChars segment
  let s :=
    if s.head? = some '(' ∧ s.getLast? = some ')' then (s.drop 1).dropLast else s
  if s = [] then .error "Empty segment in edge expression"
  else
    .ok ((((splitOnChar '|' (replaceChar '&' '|' s)).map pyStripChars).filter (· ≠ [])).map String.mk)

/-- `Flow._parse_edge_expression` (`core.py:229-239`): reject `<<`, require
`>>`, split once on `>>`, and emit the cross product of the source and
target terms. -/
def _parse_edge_expression (expr : String) : Except String (List (String × String)) :=
  let text := pyStripChars expr.data
  if hasPair '<' '<' text then .error "Invalid edge expression"
  else
    match splitFirstPair '>' '>' text with
    | none => .error "Edge expression must contain the arrow"
    | some (left, right) => do
      let sources ← _split_terms left
      let targets ← _split_terms right
      .ok (sources.flatMap fun src => targets.map fun dst => (src, dst))

/-! ## Graph compilation (`Flow.__init__`, `core.py` lines 167-209)

`adjacency` and `reverse` are `defaultdict(set)`; Python sets are modelled
as insertion-ordered duplicate-free lists (`setAdd`).  `parent_order` is
Python `sorted`, i.e. ascending lexicographic order on code points.
-/

/-- Python `set.add`: append unless already present. -/
def setAdd (l : List String) (x : String) : List String :=
  if x ∈ l then l else l ++ [x]

/-- `defaultdict(set)` update `m[k].add(v)`. -/
def adjAdd (m : List (String × List String)) (k : String) (v : String) :
    List (String × List String) :=
  match m with
  | [] => [(k, [v])]
  | (k', s) :: rest => if k' = k then (k', setAdd s v) :: rest else (k', s) :: adjAdd rest k v

/-- `m.setdefault(k, set())`. -/
def adjSetDefault (m : List (String × List String)) (k : String) :
    List (String × List String) :=
  match m with
  | [] => [(k, [])]
  | (k', s) :: rest => if k' = k then (k', s) :: rest else (k', s) :: adjSetDefault rest k

/-- Lookup in an adjacency-style association list. -/
def adjGet? (m : List (String × List String)) (k : String) : Option (List String) :=
  match m with
  | [] => none
  | (k', s) :: rest => if k' = k then some s else adjGet? rest k

/-- Lexicographic comparison of code points, matching Python `<` on strings. -/
def charListLt : List Char → List Char → Bool
  | [], [] => false
  | [], _ :: _ => true
  | _ :: _, [] => false
  | a :: as, b :: bs =>
    if a.toNat < b.toNat then true
    else if b.toNat < a.toNat then false
    else charListLt as bs

/-- Python `a <= b` on strings. -/
def strLe (a b : String) : Bool := !(charListLt b.data a.data)

/-- Python `sorted` on a list of strings: ascending stable sort. -/
def pySorted (l : List String) : List String :=
  List.insertionSort (fun a b => strLe a b = true) l

/-- The graph computed by `Flow.__init__`. -/
structure Graph where
  adjacency : List (String × List String)
  reverse : List (String × List String)
  parent_counts : List (String × Nat)
  parent_order : List (String × List String)
  deriving Repr, DecidableEq

/-- The edge loop of `Flow.__init__` (`core.py:189-195`): validate both
endpoints against the node mapping, then extend `adjacency` and `reverse`. -/
def addEdges (nodeIds : List String) (adjacency reverse : List (String × List String)) :
    List (String × String) → Except String (List (String × List String) × List (String × List String))
  | [] => .ok (adjacency, reverse)
  | (src, dst) :: rest =>
    if src ∉ nodeIds then .error "Edge references unknown source node"
    else if dst ∉ nodeIds then .error "Edge references unknown target node"
    else addEdges nodeIds (adjAdd adjacency src dst) (adjAdd reverse dst src) rest

/-- `Flow.__init__` graph construction (`core.py:186-209`): build adjacency
and reverse adjacency from the edges, ensure every node appears in both,
then derive `parent_counts` and the sorted `parent_order`. -/
def buildGraph (nodeIds : List String) (edges : List (String × String)) :
    Except String Graph := do
  let (adjacency, reverse) ← addEdges nodeIds [] [] edges
  let adjacency := nodeIds.foldl adjSetDefault adjacency
  let reverse := nodeIds.foldl adjSetDefault reverse
  .ok { adjacency := adjacency
        reverse := reverse
        parent_counts := reverse.map fun p => (p.1, p.2.length)
        parent_order := reverse.map fun p => (p.1, pySorted p.2) }

/-! ## Generic association-list operations

Used for the remaining-count map, the join buffers, `context["joins"]`,
and `context["routing"]`; same insertion-ordered dict semantics as `Dict`.
-/

/-- `m.get(k)` for an association list with arbitrary values. -/
def alGet? {α : Type} (m : List (String × α)) (k : String) : Option α :=
  match m with
  | [] => none
  | (k', v) :: rest => if k' = k then some v else alGet? rest k

/-- `m[k] = v` for an association list with arbitrary values. -/
def alSet {α : Type} (m : List (String × α)) (k : String) (v : α) : List (String × α) :=
  match m with
  | [] => [(k, v)]
  | (k', v') :: rest => if k' = k then (k', v) :: rest else (k', v') :: alSet rest k v

/-- Python `m.pop(k, None)`: the removed binding, if any, and the remaining map. -/
def alPop {α : Type} (m : List (String × α)) (k : String) :
    Option α × List (String × α) :=
  match m with
  | [] => (none, [])
  | (k', v) :: rest =>
    if k' = k then (some v, rest)
    else
      let p := alPop rest k
      (p.1, (k', v) :: p.2)

/-- Python truthiness of an optional string attribute (`if node.next_route:`):
`None` and the empty string are falsy. -/
def truthyStr : Option String → Option String
  | some s => if s = "" then none else some s
  | none => none

/-- Python `set(xs)` built from a list of ids: duplicates dropped.  (Set
iteration order is unspecified in Python; this model keeps first
occurrences.) -/
def dedupAux (seen : List String) : List String → List String
  | [] => []
  | x :: rest => if x ∈ seen then dedupAux seen rest else x :: dedupAux (x :: seen) rest

/-- Python `set(xs)` for a list of node ids. -/
def dedupStr (l : List String) : List String := dedupAux [] l

/-! ## Node model and successor resolution (`core.py` lines 62-161, 341-379) -/

/-- Result of `node.run(user_input, context)` as seen by the scheduler:
either the returned context (Python may return `None`, keeping the current
one) or a raised exception together with the context state at the raise
(in-place mutations persist past a raise). -/
inductive ExecResult where
  | ok (updated : Option Ctx)
  | raise (e : ExcInfo) (c : Ctx)

/-- The node attributes consulted by the scheduler, plus its `run` method. -/
structure NodeM where
  next_route : Option String := none
  default_route : Option String := none
  input_path : Option String := none
  exec : Value → Ctx → ExecResult

/-- The raw routing target extracted by `_resolve_successors`
(`core.py:352-357`): `Routing.next` for a `Routing` instance, `.get("next")`
for a mapping, the value itself otherwise. -/
def rawNextOf : RoutingValue → Option Target
  | .robj n => n
  | .rmap n => n
  | .direct t => some t

/-- The selection chain of `_resolve_successors` (`core.py:349-366`):
`next_route` first; else consume the routing value (`None` target returns
Python `None`, terminating the branch); else broadcast to `allowed`. -/
def selectCandidates (node : NodeM) (routing? : Option RoutingValue)
    (allowed : List String) : Option (List String) :=
  match truthyStr node.next_route with
  | some r => some [r]
  | none =>
    match routing? with
    | some rv =>
      match rawNextOf rv with
      | none => none
      | some (.one s) => some [s]
      | some (.many l) => some (dedupStr l)
    | none => some allowed

/-- `Flow._resolve_successors` (`core.py:341-379`).  Returns the resolution
outcome (`.ok none` models Python `return None`; `.ok (some l)` models a
returned set; `.error` models a raised `FlowError`) together with the
routing map after the `pop` of this node's entry. -/
def _resolve_successors (node : NodeM) (nid : String)
    (adjacency : List (String × List String))
    (routingMap : List (String × RoutingValue)) :
    Except String (Option (List String)) × List (String × RoutingValue) :=
  let allowed := (adjGet? adjacency nid).getD []
  if allowed = [] then (.ok (some []), routingMap)
  else
    let p := alPop routingMap nid
    let routingMap := p.2
    match selectCandidates node p.1 allowed with
    | none => (.ok none, routingMap)
    | some selected =>
      let selected :=
        match selected, truthyStr node.default_route with
        | [], some d => [d]
        | s, _ => s
      if selected = [] then (.ok (some []), routingMap)
      else
        let invalid := selected.filter (· ∉ allowed)
        if invalid = [] then (.ok (some selected), routingMap)
        else (.error "attempted to route to invalid successors", routingMap)

/-- Result of the callable wrapped by a `FunctionNode`: the (possibly
mutated) context and the returned payload, or a raised exception. -/
inductive FuncResult where
  | ok (c : Ctx) (result : Value)
  | raise (e : ExcInfo) (c : Ctx)

/-- `FunctionNode.run` (`core.py:152-161`) composed with
`Node._set_output` (`core.py:119-125`): call the wrapped function, record
the output under `payloads[node_id]`, and write it through `_set_to_path`
when an output path is configured.  (The `(output, delta)` tuple form of
the result is not modelled; output paths address the non-reserved part of
the context.) -/
def functionNodeRun (nid : String) (output_path : Option String)
    (f : Ctx → Value → FuncResult) : Value → Ctx → ExecResult :=
  fun user_input context =>
    match f context user_input with
    | .raise e c => .raise e c
    | .ok c output =>
      let c := { c with payloads := dictSet c.payloads nid output }
      let c :=
        match truthyStr output_path with
        | some p => { c with data := _set_to_path c.data (some p) output }
        | none => c
      .ok (some c)

/-! ## Flow construction (`Flow.__init__`, `core.py` lines 167-209) -/

/-- A compiled flow: bound nodes, the entry id, and the graph.
`dependency_counts` is a copy of `parent_counts` and is read off the graph. -/
structure FlowM where
  nodes : List (String × NodeM)
  entry_id : String
  graph : Graph

/-- `Flow.__init__` (`core.py:167-209`): validate the entry id, validate
every edge endpoint, and build the graph.  Nodes are bound to their mapping
keys (modelled by each node's `exec` closing over its id). -/
def Flow.init (nodes : List (String × NodeM)) (entry : String)
    (edges : List (String × String)) : Except String FlowM :=
  if entry ∉ nodes.map Prod.fst then .error "Entry node not found in nodes mapping"
  else
    match buildGraph (nodes.map Prod.fst) edges with
    | .error e => .error e
    | .ok g => .ok ⟨nodes, entry, g⟩

/-! ## Scheduler (`Flow.run`, `core.py` lines 252-338) -/

/-- The per-invocation scheduler state (`core.py:257-262`), plus the shared
context. -/
structure SchedState where
  ready : List String
  remaining : List (String × Nat)
  completed : List String
  in_queue : List String
  join_buffers : List (String × Dict)
  last_output : Value
  ctx : Ctx

/-- The error surfaced by `Flow.run`: a re-raised node exception, a
`FlowError` from routing/configuration, or exhaustion of the step budget
(the Python loop can spin forever re-queuing blocked nodes). -/
inductive RunError where
  | nodeError (nid : String) (e : ExcInfo)
  | flowError (msg : String)
  | outOfFuel
  deriving Repr, DecidableEq

/-- Failure recording: models both `_record_node_error` (`policy.py:107-117`)
and the identical inline `except` block of `Flow.run` (`core.py:286-296`):
append to `errors`, set the `failed_*` shortcuts, append a `failed` step. -/
def _record_node_error (c : Ctx) (nid : String) (e : ExcInfo) : Ctx :=
  { c with
    errors := c.errors ++ [⟨nid, e.exception, e.message⟩]
    failed_node_id := some nid
    failed_exception_type := some e.exception
    failed_message := some e.message
    steps := c.steps ++ [⟨nid, "failed", some e.message⟩] }

/-- The join aggregation of `Flow.run` (`core.py:323-327`): the ordered
mapping `{parent: buffer[parent] for parent in ordered if parent in buffer}`. -/
def aggregateJoin (ordered : List String) (buf : Dict) : Dict :=
  ordered.filterMap fun p => (dictGet? buf p).map fun v => (p, v)

/-- Enqueue check at the end of the successor loop (`core.py:334-336`). -/
def enqueueCheck (st : SchedState) (target : String) : SchedState :=
  if (alGet? st.remaining target).getD 0 = 0 ∧ target ∉ st.completed ∧ target ∉ st.in_queue
  then { st with ready := st.ready ++ [target], in_queue := st.in_queue ++ [target] }
  else st

/-- The body of the successor loop of `Flow.run` (`core.py:311-336`):
decrement the remaining-parent count, buffer the parent output for join
nodes (aggregating in `parent_order` when the buffer is full), forward the
output directly otherwise, and enqueue the target when it becomes ready. -/
def processSuccessor (g : Graph) (node_id : String) (output_value : Value)
    (st : SchedState) (target : String) : SchedState :=
  let r := (alGet? st.remaining target).getD ((alGet? g.parent_counts target).getD 0)
  let remaining := alSet st.remaining target (r - 1)
  let parent_count := (alGet? g.parent_counts target).getD 0
  if 1 < parent_count then
    let joinEntry := (alGet? st.ctx.joins target).getD []
    let ctx := { st.ctx with joins := alSet st.ctx.joins target (dictSet joinEntry node_id output_value) }
    let buf := dictSet ((alGet? st.join_buffers target).getD []) node_id output_value
    let join_buffers := alSet st.join_buffers target buf
    if buf.length = parent_count then
      let ordered := (alGet? g.parent_order target).getD (buf.map Prod.fst)
      let aggregated := aggregateJoin ordered buf
      let ctx := { ctx with
        payloads := dictSet ctx.payloads target (.dict aggregated)
        joins := alSet ctx.joins target aggregated }
      let join_buffers := alSet join_buffers target []
      enqueueCheck { st with remaining := remaining, ctx := ctx, join_buffers := join_buffers } target
    else
      enqueueCheck { st with remaining := remaining, ctx := ctx, join_buffers := join_buffers } target
  else
    let ctx := { st.ctx with payloads := dictSet st.ctx.payloads target output_value }
    enqueueCheck { st with remaining := remaining, ctx := ctx } target

/-- The `while ready:` loop of `Flow.run` (`core.py:264-337`), driven by an
explicit fuel.  On success it returns the final context and `last_output`
(the value Python `run` returns); on failure, the context as mutated so far
and the surfaced error. -/
def runLoop (flow : FlowM) : Nat → SchedState → Except (Ctx × RunError) (Ctx × Value)
  | 0, st => .error (st.ctx, .outOfFuel)
  | fuel + 1, st =>
    match st.ready with
    | [] => .ok (st.ctx, st.last_output)
    | node_id :: rest =>
      let st := { st with ready := rest, in_queue := st.in_queue.erase node_id }
      if node_id ∈ st.completed then runLoop flow fuel st
      else if 0 < (alGet? st.remaining node_id).getD 0 then
        runLoop flow fuel { st with ready := st.ready ++ [node_id], in_queue := setAdd st.in_queue node_id }
      else
        match alGet? flow.nodes node_id with
        | none => .error (st.ctx, .flowError "unknown node")
        | some node =>
          let ctx := { st.ctx with steps := st.ctx.steps ++ [⟨node_id, "start", none⟩] }
          let input_payload := dictGetD ctx.payloads node_id .null
          let requested := _get_from_path ctx.data node.input_path
          let input_payload := if requested.isNull then input_payload else requested
          match node.exec input_payload ctx with
          | .raise e cRaised =>
            .error (_record_node_error cRaised node_id e, .nodeError node_id e)
          | .ok updated =>
            let ctx := match updated with | some c => c | none => ctx
            let output_value := dictGetD ctx.payloads node_id input_payload
            let ctx := { ctx with steps := ctx.steps ++ [⟨node_id, "success", none⟩] }
            let st := { st with completed := setAdd st.completed node_id, ctx := ctx, last_output := output_value }
            match _resolve_successors node node_id flow.graph.adjacency st.ctx.routing with
            | (.error msg, rmap) => .error ({ st.ctx with routing := rmap }, .flowError msg)
            | (.ok none, rmap) => runLoop flow fuel { st with ctx := { st.ctx with routing := rmap } }
            | (.ok (some succs), rmap) =>
              let st := { st with ctx := { st.ctx with routing := rmap } }
              if succs = [] then runLoop flow fuel st
              else runLoop flow fuel (succs.foldl (processSuccessor flow.graph node_id output_value) st)

/-- The seeding step of `Flow.run` (`core.py:254-255`):
`payloads.setdefault(entry_id, user_input)`. -/
def seedPayloads (c : Ctx) (entry : String) (user_input : Value) : Ctx :=
  { c with payloads := dictSetDefault c.payloads entry user_input }

/-- `Flow.run(context, user_input)` (`core.py:252-338`): ensure the context,
seed `payloads[entry]`, and drive the scheduler loop from the entry node.
The success value pairs the final state of the in-place-mutated context
with the value the Python function returns (`last_output`). -/
def Flow.run (flow : FlowM) (context : Option Ctx) (user_input : Value)
    (fuel : Nat) : Except (Ctx × RunError) (Ctx × Value) :=
  let c := ensureCtx context
  let c := seedPayloads c flow.entry_id user_input
  runLoop flow fuel
    { ready := [flow.entry_id]
      remaining := flow.graph.parent_counts
      completed := []
      in_queue := [flow.entry_id]
      join_buffers := []
      last_output := .null
      ctx := c }

/-! ## Policy retry engine

`policy.py` declares the policy data (`Retry`, `OnError`, `Policy`) and the
failure recorder `_record_node_error`, and the test-suite and runtime
exercise retry behaviour, but the engine that applies a retry policy around
node execution is not part of the sources under `src/`; it is modelled here
from the specification (spec section 4.4).
-/

/-- `Retry` from `policy.py:9-13`.  `delay` is wall-clock seconds and does
not influence any observable state in this model (sleeping is not
modelled), so it is kept abstract as a natural number of milliseconds. -/
structure Retry where
  max_attempts : Nat := 0
  delay : Nat := 0
  mode : String := "fixed"
  deriving Repr, DecidableEq

/-- Modelled from the spec: the retry loop of the policy engine, which is
missing from `src/` (spec section 4.4: on exception from `execute`, if
`attempts_so_far < retry.max_attempts`, sleep, then retry; the attempts cap
includes the first try; `max_attempts = 0` disables retry).  Each failed
attempt is recorded with `_record_node_error` (`policy.py:107-117`).
`left` is the number of retries still permitted (`max_attempts - attempt`),
`attempt` the 1-based attempt counter; the result is the total number of
attempts made, the context, and the exception when all attempts failed. -/
def retryAux (nid : String) (ex : Nat → Ctx → Except ExcInfo Ctx) :
    Nat → Nat → Ctx → Nat × Ctx × Option ExcInfo
  | left, attempt, c =>
    match ex attempt c with
    | .ok c' => (attempt, c', none)
    | .error e =>
      let c' := _record_node_error c nid e
      match left with
      | 0 => (attempt, c', some e)
      | l + 1 => retryAux nid ex l (attempt + 1) c'

/-- Modelled from the spec: one node execution under a retry policy
(spec sections 4.4 and 4.5 step 7): run the attempts, and on final success
append the `success` entry to `steps` as the scheduler does on completion. -/
def runNodeWithRetry (retry : Retry) (nid : String)
    (ex : Nat → Ctx → Except ExcInfo Ctx) (c : Ctx) : Nat × Ctx × Option ExcInfo :=
  match retryAux nid ex (retry.max_attempts - 1) 1 c with
  | (n, c', none) => (n, { c' with steps := c'.steps ++ [⟨nid, "success", none⟩] }, none)
  | r => r

/-- Modelled from the spec: the execute step of a function node whose
callable produces a payload per attempt — on success the output is recorded
under `payloads[nid]` (spec section 4.5 step 5). -/
def attemptOfCallable (nid : String) (f : Nat → Except ExcInfo Value) :
    Nat → Ctx → Except ExcInfo Ctx :=
  fun attempt c =>
    match f attempt with
    | .error e => .error e
    | .ok v => .ok { c with payloads := dictSet c.payloads nid v }

/-! ## Concrete fixtures used by the claim theorems -/

/-! ## Flow.from_dsl (`core.py` lines 212-226) -/

/-- `Flow.from_dsl` restricted to edge-expression strings: expand every
expression through `_parse_edge_expression` and compile the expanded edge
list.  (Tuple edges are passed through unchanged in Python and add
nothing to model.) -/
def Flow.from_dsl (nodes : List (String × NodeM)) (entry : String)
    (exprs : List String) : Except String FlowM := do
  let expanded ← exprs.foldlM (fun acc e => do
    let es ← _parse_edge_expression e
    pure (acc ++ es)) []
  Flow.init nodes entry expanded

/-- An identity function node: the callable returns its payload unchanged. -/
def mkIdNode (nid : String) : NodeM :=
  { exec := functionNodeRun nid none fun c p => .ok c p }

/-- Membership in the edge list of a successful parse. -/
def edgeMem (p : String × String) : Except String (List (String × String)) → Prop
  | .ok l => p ∈ l
  | .error _ => False

/-- The three identity nodes used for the concrete compilations of C7. -/
def dslNodes : List (String × NodeM) :=
  [("A", mkIdNode "A"), ("B", mkIdNode "B"), ("C", mkIdNode "C")]

/-- The concrete graph compiled from `A >> C; B >> C` over nodes A, B, C. -/
def graphW : Graph :=
  { adjacency := [("A", ["C"]), ("B", ["C"]), ("C", [])]
    reverse := [("C", ["A", "B"]), ("A", []), ("B", [])]
    parent_counts := [("C", 2), ("A", 0), ("B", 0)]
    parent_order := [("C", ["A", "B"]), ("A", []), ("B", [])] }

/-- `True` on a successful compilation. -/
def isOkE {ε α : Type} : Except ε α → Bool
  | .ok _ => true
  | .error _ => false

/-- Two identity nodes for the cyclic edge set. -/
def cycNodes : List (String × NodeM) := [("A", mkIdNode "A"), ("B", mkIdNode "B")]

/-- A node with a fixed `next_route = "B"` and trivial behaviour. -/
def c4Node : NodeM :=
  { next_route := some "B", exec := fun _ c => .ok (some c) }

/-- The graph compiled from `seed >> (geo | risk); (geo & risk) >> merge`. -/
def joinGraph : Graph :=
  { adjacency := [("seed", ["geo", "risk"]), ("geo", ["merge"]), ("risk", ["merge"]), ("merge", [])]
    reverse := [("geo", ["seed"]), ("risk", ["seed"]), ("merge", ["geo", "risk"]), ("seed", [])]
    parent_counts := [("geo", 1), ("risk", 1), ("merge", 2), ("seed", 0)]
    parent_order := [("geo", ["seed"]), ("risk", ["seed"]), ("merge", ["geo", "risk"]), ("seed", [])] }

/-- Scheduler state just before the final parent `geo` of `merge`
completes: `risk` finished first, its output already buffered. -/
def c3St : SchedState :=
  { ready := []
    remaining := [("merge", 1)]
    completed := ["seed", "risk"]
    in_queue := []
    join_buffers := [("merge", [("risk", Value.str "r")])]
    last_output := Value.null
    ctx := emptyCtx }

/-- A node whose callable returns the constant string `persisted`. -/
def persistNode : NodeM :=
  { exec := functionNodeRun "A" none fun c _ => .ok c (.str "persisted") }

/-- The single-node flow `{A: persistNode}` with entry `A` and no edges. -/
def flowPersist : FlowM :=
  { nodes := [("A", persistNode)]
    entry_id := "A"
    graph := { adjacency := [("A", [])], reverse := [("A", [])]
               parent_counts := [("A", 0)], parent_order := [("A", [])] } }

/-- A node that writes the routing decision `Routing(next="B")` into
`context["routing"]["A"]` (as a routing-producing node does) and outputs
`"routed"`. -/
def routeWriterNode : NodeM :=
  { exec := functionNodeRun "A" none fun c _ =>
      .ok { c with routing := alSet c.routing "A" (.robj (some (.one "B"))) } (.str "routed") }

/-- The flow `A >> B, A >> C` where A routes to B only. -/
def flowRoute3 : FlowM :=
  { nodes := [("A", routeWriterNode), ("B", mkIdNode "B"), ("C", mkIdNode "C")]
    entry_id := "A"
    graph := { adjacency := [("A", ["B", "C"]), ("B", []), ("C", [])]
               reverse := [("B", ["A"]), ("C", ["A"]), ("A", [])]
               parent_counts := [("B", 1), ("C", 1), ("A", 0)]
               parent_order := [("B", ["A"]), ("C", ["A"]), ("A", [])] } }

/-- The single-node identity flow with entry `A`. -/
def flowIdA : FlowM :=
  { nodes := [("A", mkIdNode "A")]
    entry_id := "A"
    graph := { adjacency := [("A", [])], reverse := [("A", [])]
               parent_counts := [("A", 0)], parent_order := [("A", [])] } }

/-- A context whose payloads already bind the entry node. -/
def preSeededCtx : Ctx := { payloads := [("A", Value.str "pre")] }

/-- A node whose execution always raises `RuntimeError("boom")`. -/
def failNode : NodeM :=
  { exec := fun _ c => .raise ⟨"RuntimeError", "boom"⟩ c }

/-- The single-node flow around `failNode`. -/
def flowFail : FlowM :=
  { nodes := [("F", failNode)]
    entry_id := "F"
    graph := { adjacency := [("F", [])], reverse := [("F", [])]
               parent_counts := [("F", 0)], parent_order := [("F", [])] } }

/-- The context state surfaced by the failing run of `flowFail`. -/
def cFailFinal : Ctx :=
  { steps := [⟨"F", "start", none⟩, ⟨"F", "failed", some "boom"⟩]
    errors := [⟨"F", "RuntimeError", "boom"⟩]
    payloads := [("F", Value.null)]
    failed_node_id := some "F"
    failed_exception_type := some "RuntimeError"
    failed_message := some "boom" }

/-- The callable of the retry scenario: first attempt raises, second
returns `"recovered"`. -/
def retryCallable : Nat → Except ExcInfo Value :=
  fun n => if n = 1 then .error ⟨"RuntimeError", "retry me"⟩ else .ok (.str "recovered")

/-! ## Helper lemmas -/

theorem dictGet?_dictSet_self (m : Dict) (k : String) (v : Value) :
    dictGet? (dictSet m k v) k = some v := by
  induction m with
  | nil => simp [dictSet, dictGet?]
  | cons h t ih =>
    obtain ⟨k', v'⟩ := h
    by_cases hk : k' = k <;> simp [dictSet, dictGet?, hk, ih]

theorem alGet?_alSet_self {α : Type} (m : List (String × α)) (k : String) (v : α) :
    alGet? (alSet m k v) k = some v := by
  induction m with
  | nil => simp [alSet, alGet?]
  | cons h t ih =>
    obtain ⟨k', v'⟩ := h
    by_cases hk : k' = k <;> simp [alSet, alGet?, hk, ih]

theorem dictGet?_append_of_none (m : Dict) (k : String) (v : Value)
    (h : dictGet? m k = none) : dictGet? (m ++ [(k, v)]) k = some v := by
  induction m with
  | nil => simp [dictGet?]
  | cons hd t ih =>
    obtain ⟨k', v'⟩ := hd
    by_cases hk : k' = k
    · simp [dictGet?, hk] at h
    · simp [dictGet?, hk] at h ⊢
      exact ih h

theorem dictGet?_isSome_of_mem_keys (buf : Dict) (p : String)
    (h : p ∈ buf.map Prod.fst) : ∃ v, dictGet? buf p = some v := by
  induction buf with
  | nil => simp at h
  | cons hd t ih =>
    obtain ⟨k, v⟩ := hd
    by_cases hk : k = p
    · exact ⟨v, by simp [dictGet?, hk]⟩
    · simp only [List.map_cons, List.mem_cons] at h
      rcases h with h | h
      · exact absurd h.symm hk
      · obtain ⟨v', hv'⟩ := ih h
        exact ⟨v', by simp [dictGet?, hk, hv']⟩

theorem aggregateJoin_keys (ordered : List String) (buf : Dict)
    (h : ∀ p ∈ ordered, p ∈ buf.map Prod.fst) :
    (aggregateJoin ordered buf).map Prod.fst = ordered := by
  induction ordered with
  | nil => rfl
  | cons p rest ih =>
    obtain ⟨v, hv⟩ := dictGet?_isSome_of_mem_keys buf p (h p (by simp))
    have := ih fun q hq => h q (by simp [hq])
    simp [aggregateJoin, List.filterMap_cons, hv] at this ⊢
    exact this

theorem getPathWalk_setPathWalk (v : Value) :
    ∀ parts : List String, parts ≠ [] → ∀ m : Dict,
      getPathWalk (.dict (setPathWalk m parts v)) parts = v := by
  intro parts
  induction parts with
  | nil => intro h; exact absurd rfl h
  | cons part rest ih =>
    intro _ m
    cases rest with
    | nil => simp [setPathWalk, getPathWalk, dictGet?_dictSet_self]
    | cons r2 rs =>
      simp only [setPathWalk, getPathWalk, dictGet?_dictSet_self]
      exact ih (by simp) _

theorem getPathWalk_empty_dict (parts : List String) (h : parts ≠ []) :
    getPathWalk (.dict []) parts = .null := by
  cases parts with
  | nil => exact absurd rfl h
  | cons a b => simp [getPathWalk, dictGet?]

/-! ## Claim C8: path resolver round trip -/

/-- C8 (counterexample): the round trip fails on the empty path, which the
resolver treats as falsy: the write is a no-op and the read returns null,
not the written value. -/
theorem c8_empty_path_counterexample :
    _set_to_path [] (some "") (Value.str "x") = [] ∧
    _get_from_path (_set_to_path [] (some "") (Value.str "x")) (some "") = Value.null ∧
    Value.null ≠ Value.str "x" := by
  refine ⟨rfl, rfl, ?_⟩
  intro h
  cases h

/-- C8 (amended): for every value V and every dotted path P with at least one
non-empty segment, writing V at P into a context and then reading P returns
V; and reading such a path on a context where nothing was written returns
null without raising (the resolver is total).  Paths without segments
(empty, or dots only) are write no-ops and are excluded. -/
theorem c8_roundtrip_amended (m : Dict) (P : String) (V : Value)
    (h : pathParts P ≠ []) :
    _get_from_path (_set_to_path m (some P) V) (some P) = V ∧
    _get_from_path [] (some P) = Value.null := by
  have hP : P ≠ "" := by
    intro he
    rw [he] at h
    exact h rfl
  constructor
  · unfold _set_to_path _get_from_path
    simp only [hP, if_false, reduceIte]
    cases hparts : pathParts P with
    | nil => exact absurd hparts h
    | cons a b => exact getPathWalk_setPathWalk V (a :: b) (by simp) m
  · unfold _get_from_path
    simp only [hP, if_false, reduceIte]
    cases hparts : pathParts P with
    | nil => exact absurd hparts h
    | cons a b => exact getPathWalk_empty_dict (a :: b) (by simp)

/-- C8 witness: the amended round trip at path `a.b` on an empty context. -/
theorem c8_roundtrip_amended_witness :
    _get_from_path (_set_to_path [] (some "a.b") (Value.str "x")) (some "a.b") = Value.str "x" ∧
    _get_from_path [] (some "a.b") = Value.null :=
  c8_roundtrip_amended [] "a.b" (Value.str "x") (by decide)

theorem alGet?_map {α β : Type} (f : α → β) (m : List (String × α)) (k : String) :
    alGet? (m.map fun p => (p.1, f p.2)) k = (alGet? m k).map f := by
  induction m with
  | nil => rfl
  | cons hd t ih =>
    obtain ⟨k', v⟩ := hd
    by_cases hk : k' = k <;> simp [alGet?, hk, ih]

theorem buildGraph_parent_counts (ids : List String) (edges : List (String × String))
    (g : Graph) (hg : buildGraph ids edges = .ok g) (id : String) (ps : List String)
    (hrev : alGet? g.reverse id = some ps) :
    alGet? g.parent_counts id = some ps.length := by
  unfold buildGraph at hg
  cases hae : addEdges ids [] [] edges with
  | error e => rw [hae] at hg; simp [Bind.bind, Except.bind] at hg
  | ok pr =>
    rw [hae] at hg
    simp only [Bind.bind, Except.bind, Except.ok.injEq] at hg
    subst hg
    simp only at hrev ⊢
    rw [alGet?_map List.length, hrev]
    rfl

theorem buildGraph_parent_order (ids : List String) (edges : List (String × String))
    (g : Graph) (hg : buildGraph ids edges = .ok g) (id : String) (ps : List String)
    (hrev : alGet? g.reverse id = some ps) :
    alGet? g.parent_order id = some (pySorted ps) := by
  unfold buildGraph at hg
  cases hae : addEdges ids [] [] edges with
  | error e => rw [hae] at hg; simp [Bind.bind, Except.bind] at hg
  | ok pr =>
    rw [hae] at hg
    simp only [Bind.bind, Except.bind, Except.ok.injEq] at hg
    subst hg
    simp only at hrev ⊢
    rw [alGet?_map pySorted, hrev]
    rfl

/-! ## Claim C7: edge parser algebra -/

/-- C7: `parse("A >> (B | C)")` equals `parse("A >> B") ∪ parse("A >> C")`
as sets of edges; compiling `"(A & B) >> C"` yields the same flow (graph
included) as compiling the two edges `"A >> C"` and `"B >> C"`; duplicate
edges are de-duplicated; and in every compiled graph
`parent_counts[id] = |reverse[id]|`. -/
theorem c7_edge_parser_algebra :
    (∀ p : String × String,
      edgeMem p (_parse_edge_expression "A >> (B | C)") ↔
        (edgeMem p (_parse_edge_expression "A >> B") ∨
         edgeMem p (_parse_edge_expression "A >> C"))) ∧
    Flow.from_dsl dslNodes "A" ["(A & B) >> C"] =
      Flow.from_dsl dslNodes "A" ["A >> C", "B >> C"] ∧
    Flow.from_dsl dslNodes "A" ["A >> C", "B >> C", "A >> C"] =
      Flow.from_dsl dslNodes "A" ["A >> C", "B >> C"] ∧
    (∀ (ids : List String) (edges : List (String × String)) (g : Graph)
        (id : String) (ps : List String),
      buildGraph ids edges = .ok g → alGet? g.reverse id = some ps →
        alGet? g.parent_counts id = some ps.length) := by
  refine ⟨?_, rfl, rfl, ?_⟩
  · have h1 : _parse_edge_expression "A >> (B | C)" = .ok [("A", "B"), ("A", "C")] := rfl
    have h2 : _parse_edge_expression "A >> B" = .ok [("A", "B")] := rfl
    have h3 : _parse_edge_expression "A >> C" = .ok [("A", "C")] := rfl
    intro p
    rw [h1, h2, h3]
    simp [edgeMem]
  · intro ids edges g id ps hg hrev
    exact buildGraph_parent_counts ids edges g hg id ps hrev

/-- C7 witness: the general `parent_counts = |reverse|` component evaluated
on the concrete join graph. -/
theorem c7_edge_parser_algebra_witness :
    alGet? graphW.parent_counts "C" = some 2 :=
  c7_edge_parser_algebra.2.2.2 ["A", "B", "C"] [("A", "C"), ("B", "C")] graphW "C"
    ["A", "B"] rfl rfl

/-! ## Claim C5: cycle handling at compilation -/

/-- C5 (counterexample): the two-node cycle `A >> B, B >> A` — a cycle that
is not a self-edge — compiles successfully, refuting the claim that graph
compilation fails for every such edge set. -/
theorem c5_cycle_compiles_counterexample :
    isOkE (Flow.init cycNodes "A" [("A", "B"), ("B", "A")]) = true ∧
    ("A" : String) ≠ "B" := by
  exact ⟨rfl, by decide⟩

theorem addEdges_ok (ids : List String) :
    ∀ (edges : List (String × String)),
      (∀ e ∈ edges, e.1 ∈ ids ∧ e.2 ∈ ids) →
      ∀ a r, ∃ p, addEdges ids a r edges = .ok p := by
  intro edges
  induction edges with
  | nil => intro _ a r; exact ⟨(a, r), rfl⟩
  | cons e rest ih =>
    intro h a r
    obtain ⟨hs, hd⟩ := h e (by simp)
    obtain ⟨p, hp⟩ := ih (fun e' he' => h e' (by simp [he'])) (adjAdd a e.1 e.2) (adjAdd r e.2 e.1)
    exact ⟨p, by simp [addEdges, hs, hd]; exact hp⟩

/-- C5 (amended): graph compilation performs no cycle detection.  It
succeeds for every edge set whose endpoints are declared nodes (with a
declared entry), cycles of any shape included; self-edges are likewise
permitted.  Compilation fails only for an unknown entry or an unknown edge
endpoint. -/
theorem c5_no_cycle_check_amended (nodes : List (String × NodeM)) (entry : String)
    (edges : List (String × String))
    (hentry : entry ∈ nodes.map Prod.fst)
    (hedges : ∀ e ∈ edges, e.1 ∈ nodes.map Prod.fst ∧ e.2 ∈ nodes.map Prod.fst) :
    isOkE (Flow.init nodes entry edges) = true := by
  unfold Flow.init
  simp only [hentry, not_true_eq_false, if_false, reduceIte]
  obtain ⟨p, hp⟩ := addEdges_ok (nodes.map Prod.fst) edges hedges [] []
  unfold buildGraph
  rw [hp]
  simp [Bind.bind, Except.bind, isOkE]

/-- C5 witness: the amended theorem on a self-edged loop graph. -/
theorem c5_no_cycle_check_amended_witness :
    isOkE (Flow.init cycNodes "A" [("A", "A"), ("A", "B")]) = true :=
  c5_no_cycle_check_amended cycNodes "A" [("A", "A"), ("A", "B")] (by decide)
    (by decide)

/-! ## Claim C4: successor resolution order -/

/-- C4 (counterexample): a node with `next_route = "B"` and a pending
Routing whose target is null (`Routing(next=None)` in `routing["n"]`),
with successors B and C: `_resolve_successors` selects `{"B"}` because the
code consults `next_route` BEFORE the routing value, so the branch does not
terminate — the claimed order (routing first) fails. -/
theorem c4_next_route_precedes_routing_counterexample :
    _resolve_successors c4Node "n" [("n", ["B", "C"])] [("n", RoutingValue.robj none)] =
      (.ok (some ["B"]), []) ∧
    (Except.ok (some ["B"]) ≠ (Except.ok none : Except String (Option (List String)))) ∧
    (Except.ok (some ["B"]) ≠
      (Except.ok (some ([] : List String)) : Except String (Option (List String)))) := by
  refine ⟨rfl, by simp, by simp⟩

/-- C4 (amended): successor resolution consults the node's fixed
`next_route` FIRST: when it is set (and non-empty) the selection is
`{next_route}` regardless of any pending routing value, and the routing
value is still consumed (popped).  Only when `next_route` is unset does a
routing value apply: a null target terminates the branch with no
successors, a single-id target selects that id, and a list target selects
the set of listed ids. -/
theorem c4_resolution_order_amended (node : NodeM) (routing? : Option RoutingValue)
    (allowed : List String) :
    (∀ r, truthyStr node.next_route = some r →
      selectCandidates node routing? allowed = some [r]) ∧
    (truthyStr node.next_route = none →
      ∀ rv, routing? = some rv →
        (rawNextOf rv = none → selectCandidates node routing? allowed = none) ∧
        (∀ s, rawNextOf rv = some (.one s) →
          selectCandidates node routing? allowed = some [s]) ∧
        (∀ l, rawNextOf rv = some (.many l) →
          selectCandidates node routing? allowed = some (dedupStr l))) ∧
    (∀ nid adjacency rmap allowed',
      adjGet? adjacency nid = some allowed' → allowed' ≠ [] →
      (_resolve_successors node nid adjacency rmap).2 = (alPop rmap nid).2) := by
  refine ⟨?_, ?_, ?_⟩
  · intro r h
    simp [selectCandidates, h]
  · intro hn rv hrv
    refine ⟨?_, ?_, ?_⟩
    · intro h
      simp [selectCandidates, hn, hrv, h]
    · intro s h
      simp [selectCandidates, hn, hrv, h]
    · intro l h
      simp [selectCandidates, hn, hrv, h]
  · intro nid adjacency rmap allowed' hadj hne
    unfold _resolve_successors
    rw [hadj]
    simp only [Option.getD_some]
    rw [if_neg hne]
    split <;> first | rfl | (split <;> first | rfl | (split <;> rfl))

/-- C4 witness: the amended resolution order at concrete inputs — the
`next_route` branch for `c4Node`, and the null-target termination for a
node without `next_route`. -/
theorem c4_resolution_order_amended_witness :
    selectCandidates c4Node (some (RoutingValue.robj none)) ["B", "C"] = some ["B"] ∧
    selectCandidates (mkIdNode "n") (some (RoutingValue.robj none)) ["B", "C"] = none := by
  constructor
  · exact (c4_resolution_order_amended c4Node (some (RoutingValue.robj none))
      ["B", "C"]).1 "B" rfl
  · exact (((c4_resolution_order_amended (mkIdNode "n") (some (RoutingValue.robj none))
      ["B", "C"]).2.1 rfl (RoutingValue.robj none) rfl).1 rfl)

/-! ## Claim C3: join aggregation key order -/

theorem enqueueCheck_ctx (st : SchedState) (t : String) :
    (enqueueCheck st t).ctx = st.ctx := by
  unfold enqueueCheck
  split <;> rfl

/-- C3: for every compiled graph and every node `target` with more than one
parent, at the moment the final parent completes (the join buffer, after
inserting the completing parent's output, covers all parents), the
scheduler's successor step stores the aggregate under both
`payloads[target]` and `joins[target]`, and the aggregate's key order is
the sorted list of the parent ids — for EVERY order in which the parents
completed (every permutation of the buffer). -/
theorem c3_join_key_order_sorted
    (ids : List String) (edges : List (String × String)) (g : Graph)
    (hg : buildGraph ids edges = .ok g)
    (target : String) (parents : List String)
    (hrev : alGet? g.reverse target = some parents)
    (hpc : 1 < parents.length)
    (node_id : String) (out : Value) (st : SchedState) (buf : Dict)
    (hbuf : buf = dictSet ((alGet? st.join_buffers target).getD []) node_id out)
    (hknd : (buf.map Prod.fst).Nodup)
    (hsub : ∀ k ∈ buf.map Prod.fst, k ∈ parents)
    (hlen : buf.length = parents.length) :
    dictGet? (processSuccessor g node_id out st target).ctx.payloads target =
      some (.dict (aggregateJoin (pySorted parents) buf)) ∧
    alGet? (processSuccessor g node_id out st target).ctx.joins target =
      some (aggregateJoin (pySorted parents) buf) ∧
    (aggregateJoin (pySorted parents) buf).map Prod.fst = pySorted parents := by
  have hpcl : alGet? g.parent_counts target = some parents.length :=
    buildGraph_parent_counts ids edges g hg target parents hrev
  have hpo : alGet? g.parent_order target = some (pySorted parents) :=
    buildGraph_parent_order ids edges g hg target parents hrev
  have hperm : (buf.map Prod.fst).Perm parents :=
    (hknd.subperm hsub).perm_of_length_le (by rw [List.length_map]; omega)
  have hcov : ∀ p ∈ parents, p ∈ buf.map Prod.fst := fun p hp => hperm.mem_iff.mpr hp
  have hsorted_perm : (pySorted parents).Perm parents :=
    List.perm_insertionSort (fun a b => strLe a b = true) parents
  have keysEq : (aggregateJoin (pySorted parents) buf).map Prod.fst = pySorted parents :=
    aggregateJoin_keys (pySorted parents) buf fun p hp => hcov p (hsorted_perm.subset hp)
  refine ⟨?_, ?_, keysEq⟩ <;>
  · unfold processSuccessor
    rw [hpcl]
    simp only [Option.getD_some]
    rw [if_pos hpc, ← hbuf]
    simp only [hlen, if_pos rfl, hpo, Option.getD_some]
    simp [enqueueCheck_ctx, dictGet?_dictSet_self, alGet?_alSet_self]

/-- C3 witness: `risk` completed before `geo`, yet the aggregate is keyed
`geo` before `risk` — the sorted parent order, not the completion order. -/
theorem c3_join_key_order_sorted_witness :
    (aggregateJoin (pySorted ["geo", "risk"]) [("risk", Value.str "r"), ("geo", Value.str "g")]).map
      Prod.fst = pySorted ["geo", "risk"] ∧
    dictGet? (processSuccessor joinGraph "geo" (Value.str "g") c3St "merge").ctx.payloads "merge" =
      some (.dict (aggregateJoin (pySorted ["geo", "risk"])
        [("risk", Value.str "r"), ("geo", Value.str "g")])) :=
  have h := c3_join_key_order_sorted ["seed", "geo", "risk", "merge"]
    [("seed", "geo"), ("seed", "risk"), ("geo", "merge"), ("risk", "merge")] joinGraph rfl
    "merge" ["geo", "risk"] rfl (by decide) "geo" (Value.str "g") c3St
    [("risk", Value.str "r"), ("geo", Value.str "g")] rfl (by decide) (by decide) (by decide)
  ⟨h.2.2, h.1⟩

/-! ## Claim C1: the value `Flow.run` returns -/

/-- C1 (code evaluation at the failing input): the claim (and the
repository's own tests, which assert `flow.run(ctx) is ctx`) says `run`
returns the context.  The code returns `last_output`: running the
single-node flow returns the node's payload `"persisted"`, a string, not
the context mapping.  (The context is mutated in place — the returned final
context holds the step and payload records — and a raised exception is
surfaced, but the Python return value is the last output.) -/
theorem c1_run_returns_last_output_not_context :
    Flow.init [("A", persistNode)] "A" [] = .ok flowPersist ∧
    Flow.run flowPersist (some emptyCtx) .null 4 =
      .ok ({ steps := [⟨"A", "start", none⟩, ⟨"A", "success", none⟩]
             payloads := [("A", .str "persisted")] }, .str "persisted") ∧
    (Value.str "persisted").isDict = false := by
  exact ⟨rfl, rfl, rfl⟩

/-! ## Claim C6: persistence of routing decisions -/

/-- C6 (code evaluation at the failing input): node A produces a routing
decision that selects B among the successors B and C; B (and only B) runs,
proving the decision was consumed — yet after `run` returns, the context's
`routing` mapping is empty: `_resolve_successors` pops `routing["A"]`, so
the decision cannot be audited after execution, contradicting the claim
(and the repository's tests, which read `context["routing"]` after run). -/
theorem c6_routing_popped_after_run :
    Flow.init [("A", routeWriterNode), ("B", mkIdNode "B"), ("C", mkIdNode "C")] "A"
      [("A", "B"), ("A", "C")] = .ok flowRoute3 ∧
    Flow.run flowRoute3 (some emptyCtx) .null 6 =
      .ok ({ steps := [⟨"A", "start", none⟩, ⟨"A", "success", none⟩,
                       ⟨"B", "start", none⟩, ⟨"B", "success", none⟩]
             routing := []
             payloads := [("A", .str "routed"), ("B", .str "routed")] }, .str "routed") ∧
    alGet? ([] : List (String × RoutingValue)) "A" = none := by
  exact ⟨rfl, rfl, rfl⟩

/-! ## Claim C10: seeding of the entry payload -/

/-- C10 (counterexample): `Flow.run` seeds `payloads[entry]` with
`setdefault`, so for a context that already binds the entry payload the
user input `"new"` is ignored: the entry node executes with `"pre"` and
`payloads[A]` is never set to the user input. -/
theorem c10_setdefault_counterexample :
    Flow.run flowIdA (some preSeededCtx) (Value.str "new") 4 =
      .ok ({ steps := [⟨"A", "start", none⟩, ⟨"A", "success", none⟩]
             payloads := [("A", Value.str "pre")] }, Value.str "pre") ∧
    Value.str "pre" ≠ Value.str "new" := by
  refine ⟨rfl, ?_⟩
  simp

/-- C10 (amended): `payloads[entry]` is seeded with the user input only
when the incoming context does not already bind it (`setdefault`,
`core.py:255`): a fresh context receives `user_input`, while a pre-existing
binding is preserved unchanged (and the entry node then executes with the
preserved payload, as the counterexample shows). -/
theorem c10_seed_amended (c : Ctx) (entry : String) (u : Value) :
    (dictGet? c.payloads entry = none →
      dictGet? (seedPayloads c entry u).payloads entry = some u) ∧
    (∀ v, dictGet? c.payloads entry = some v →
      (seedPayloads c entry u).payloads = c.payloads) := by
  constructor
  · intro h
    unfold seedPayloads dictSetDefault dictMem
    simp only [h, Option.isSome_none, Bool.false_eq_true, if_false, reduceIte]
    exact dictGet?_append_of_none c.payloads entry u h
  · intro v h
    unfold seedPayloads dictSetDefault dictMem
    simp [h]

/-- C10 witness: the amended seeding at concrete inputs — both the fresh
and the pre-seeded context. -/
theorem c10_seed_amended_witness :
    dictGet? (seedPayloads emptyCtx "A" (Value.str "new")).payloads "A" =
      some (Value.str "new") ∧
    (seedPayloads preSeededCtx "A" (Value.str "new")).payloads = preSeededCtx.payloads :=
  ⟨(c10_seed_amended emptyCtx "A" (Value.str "new")).1 rfl,
   (c10_seed_amended preSeededCtx "A" (Value.str "new")).2 (Value.str "pre") rfl⟩

/-! ## Claim C9: failures recorded before surfacing -/

theorem runLoop_nodeError_recorded (flow : FlowM) :
    ∀ (fuel : Nat) (st : SchedState) (c : Ctx) (nid : String) (e : ExcInfo),
      runLoop flow fuel st = .error (c, .nodeError nid e) →
      c.errors.getLast? = some ⟨nid, e.exception, e.message⟩ ∧
      c.failed_node_id = some nid ∧
      c.failed_exception_type = some e.exception ∧
      c.failed_message = some e.message ∧
      c.steps.getLast? = some ⟨nid, "failed", some e.message⟩ := by
  intro fuel
  induction fuel with
  | zero =>
    intro st c nid e h
    simp [runLoop] at h
  | succ n ih =>
    intro st c nid e h
    simp only [runLoop] at h
    split at h
    · simp at h
    · split at h
      · exact ih _ _ _ _ h
      · split at h
        · exact ih _ _ _ _ h
        · split at h
          · simp at h
          · split at h
            · simp only [Except.error.injEq, Prod.mk.injEq, RunError.nodeError.injEq] at h
              obtain ⟨hc, hn, he⟩ := h
              subst hc
              subst hn
              subst he
              unfold _record_node_error
              refine ⟨?_, rfl, rfl, rfl, ?_⟩ <;> simp [List.getLast?_concat]
            · split at h
              · simp at h
              · exact ih _ _ _ _ h
              · split at h
                · exact ih _ _ _ _ h
                · exact ih _ _ _ _ h

/-- C9: whenever a node's execution raises and the error propagates out of
`Flow.run`, the context carried out with the exception has already been
updated before surfacing: the entry `{node_id, exception, message}` is the
last element of `errors`, the `failed_node_id` / `failed_exception_type` /
`failed_message` shortcuts are set to that failure, and the last `steps`
entry for that node has status `failed`. -/
theorem c9_failure_recorded_before_surfacing (flow : FlowM) (context : Option Ctx)
    (u : Value) (fuel : Nat) (c : Ctx) (nid : String) (e : ExcInfo)
    (h : Flow.run flow context u fuel = .error (c, .nodeError nid e)) :
    c.errors.getLast? = some ⟨nid, e.exception, e.message⟩ ∧
    c.failed_node_id = some nid ∧
    c.failed_exception_type = some e.exception ∧
    c.failed_message = some e.message ∧
    c.steps.getLast? = some ⟨nid, "failed", some e.message⟩ := by
  unfold Flow.run at h
  exact runLoop_nodeError_recorded flow fuel _ c nid e h

/-- C9 witness: the failing single-node flow, with the error record,
`failed_*` shortcuts, and failed step all present when the exception
surfaces. -/
theorem c9_failure_recorded_before_surfacing_witness :
    cFailFinal.errors.getLast? = some ⟨"F", "RuntimeError", "boom"⟩ ∧
    cFailFinal.failed_node_id = some "F" ∧
    cFailFinal.failed_exception_type = some "RuntimeError" ∧
    cFailFinal.failed_message = some "boom" ∧
    cFailFinal.steps.getLast? = some ⟨"F", "failed", some "boom"⟩ :=
  c9_failure_recorded_before_surfacing flowFail (some emptyCtx) .null 4 cFailFinal
    "F" ⟨"RuntimeError", "boom"⟩ (by rfl)

/-! ## Claim C2: retry recovery (spec-modelled policy engine) -/

/-- C2: for every node with effective policy `retry{max_attempts: 2,
delay: 0}` whose execute raises on the first attempt and returns
`"recovered"` on the second, the engine re-invokes the node
(2 attempts, because `attempts_so_far < retry.max_attempts` after the
first failure) and completes successfully with
`payloads[node] = "recovered"`, exactly one recorded error, and `steps`
ending with a success entry for that node. -/
theorem c2_retry_recovers (nid : String) (e : ExcInfo) (c : Ctx)
    (f : Nat → Except ExcInfo Value) (r : Nat × Ctx × Option ExcInfo)
    (h1 : f 1 = .error e) (h2 : f 2 = .ok (.str "recovered"))
    (herr : c.errors = [])
    (hr : runNodeWithRetry ⟨2, 0, "fixed"⟩ nid (attemptOfCallable nid f) c = r) :
    r.1 = 2 ∧
    r.2.2 = none ∧
    dictGet? r.2.1.payloads nid = some (.str "recovered") ∧
    r.2.1.errors = [⟨nid, e.exception, e.message⟩] ∧
    r.2.1.steps.getLast? = some ⟨nid, "success", none⟩ := by
  subst hr
  simp [runNodeWithRetry, retryAux, attemptOfCallable, h1, h2, _record_node_error,
    herr, dictGet?_dictSet_self, List.getLast?_concat]

/-- C2 witness: the retry scenario at concrete inputs. -/
theorem c2_retry_recovers_witness :
    (runNodeWithRetry ⟨2, 0, "fixed"⟩ "Retry" (attemptOfCallable "Retry" retryCallable)
      emptyCtx).1 = 2 ∧
    dictGet? (runNodeWithRetry ⟨2, 0, "fixed"⟩ "Retry"
      (attemptOfCallable "Retry" retryCallable) emptyCtx).2.1.payloads "Retry" =
      some (.str "recovered") ∧
    (runNodeWithRetry ⟨2, 0, "fixed"⟩ "Retry" (attemptOfCallable "Retry" retryCallable)
      emptyCtx).2.1.errors = [⟨"Retry", "RuntimeError", "retry me"⟩] :=
  have h := c2_retry_recovers "Retry" ⟨"RuntimeError", "retry me"⟩ emptyCtx
    retryCallable _ rfl rfl rfl rfl
  ⟨h.1, h.2.2.1, h.2.2.2.1⟩
